import Mathlib

/-
Verification development for find_church_emails.py, a scraper that crawls
church websites, discovers contact-like pages by keyword matching on hrefs,
extracts e-mail addresses with a regular expression, and exports the
deduplicated results to a spreadsheet.

Modelling conventions (shallow embedding):
  * The network is a pure environment function `net : String -> Except String (Nat, String)`
    giving, per URL, either a transport-level error message (connection failure,
    timeout, TLS error, too many redirects) or the final response after
    automatic redirect following: its HTTP status and body text.
  * The HTML parser (BeautifulSoup/lxml) is an environment function
    `parse : String -> Except String HNode`; a parsed page is a DOM tree
    `HNode`, and parse failures carry the stringified exception.
  * The TTLCache-backed `cached` decorator over the coroutine `fetch` is
    modelled as result memoization: on a miss the body is computed and stored,
    on a hit the stored body is returned and no request is issued.  The real
    key is `hashkey(session, url)` with one session per run, so keys are
    modelled by the URL alone.  TTL expiry and LRU eviction are modelled
    abstractly: an expired or evicted entry is simply absent from the cache
    component of the state.  The state also records the list of URLs for which
    an actual network request was performed, so that "no second network
    request" is expressible.
  * Exceptions are values (`Except`); a caught exception is folded into data
    exactly where the Python code does so.
  * The e-mail regular expression [a-zA-Z0-9._%+-]+@[a-zA-Z0-9.-]+\.[a-zA-Z]
    (with the final class repeated at least twice) is implemented directly as
    a backtracking matcher with Python re semantics: findall returns the
    non-overlapping leftmost matches in order, search tests whether any
    position matches.  Character classes are the ASCII ones the pattern names.
-/

set_option autoImplicit false

namespace FindChurchEmails

/-- Exception raised inside the try block of `fetch`: either a transport or
timeout error from the client, or the `raise_for_status` error for an HTTP
status of 400 or above. -/
inductive PyErr where
  | transport (msg : String)
  | httpStatus (status : Nat)
deriving DecidableEq

mutual
/-- A DOM-like tree as produced by BeautifulSoup: elements carry a tag name,
an attribute list and children, text nodes carry their text. -/
inductive HNode where
  | elem (tag : String) (attrs : List (String × String)) (children : HForest)
  | text (s : String)

/-- A sequence of sibling DOM nodes. -/
inductive HForest where
  | nil
  | cons (hd : HNode) (tl : HForest)
end

/-- Document-order (pre-order) traversal of a sibling sequence collecting the
href attribute of every anchor element: the href of an anchor element comes
first, then the hrefs inside its children, then those of its later
siblings. -/
def anchorHrefsForest : HForest → List String
  | .nil => []
  | .cons (.text _) ns => anchorHrefsForest ns
  | .cons (.elem tag attrs children) ns =>
    (if tag == "a" then
      match attrs.find? (fun p => p.1 == "href") with
      | some p => [p.2]
      | none => []
    else []) ++ (anchorHrefsForest children ++ anchorHrefsForest ns)

/-- Hrefs of all anchor elements of a document in document order, as in
soup.find_all with tag a and href required. -/
def anchorHrefs (n : HNode) : List String :=
  anchorHrefsForest (.cons n .nil)

/-- The external world of one run: the network and the HTML parser. -/
structure Env where
  net : String → Except String (Nat × String)
  parse : String → Except String HNode

/-- Shared mutable state of the fetcher: the cache entries currently present
(neither expired nor evicted), and the log of URLs actually requested over
the network. -/
structure FetchState where
  cache : List (String × String)
  requests : List String
deriving DecidableEq

/-- Lookup of a cache entry by URL key. -/
def lookupCache (c : List (String × String)) (u : String) : Option String :=
  (c.find? (fun p => p.1 == u)).map (fun p => p.2)

/-- The try block of `fetch`: session.get, raise_for_status, response.text.
aiohttp raises for a status of 400 or above; any lower status (2xx, or a 3xx
that was not consumed by redirect following) yields the body text. -/
def requestAttempt (env : Env) (u : String) : Except PyErr String :=
  match env.net u with
  | .error m => .error (.transport m)
  | .ok (status, body) => if 400 ≤ status then .error (.httpStatus status) else .ok body

/-- The whole body of the decorated coroutine `fetch`: the try block with
every exception caught and converted to the empty string. -/
def requestBody (env : Env) (u : String) : String :=
  match requestAttempt env u with
  | .ok t => t
  | .error _ => ""

/-- `fetch(session, url)` including the memoizing decorator: a cache hit
returns the stored body and issues no request; a miss performs the request
(recording it), stores the body, and returns it. -/
def fetch (env : Env) (u : String) (st : FetchState) : String × FetchState :=
  match lookupCache st.cache u with
  | some v => (v, st)
  | none =>
    let v := requestBody env u
    (v, ⟨(u, v) :: st.cache, st.requests ++ [u]⟩)

/-- Character class [a-zA-Z0-9._%+-] of the local part of the e-mail regex. -/
def isLocalChar (c : Char) : Bool :=
  c.isAlphanum || c == '.' || c == '_' || c == '%' || c == '+' || c == '-'

/-- Character class [a-zA-Z0-9.-] of the domain part of the e-mail regex. -/
def isDomainChar (c : Char) : Bool :=
  c.isAlphanum || c == '.' || c == '-'

/-- Backtracking for the tail of the e-mail pattern after the at sign: the
greedy domain class must leave a literal dot followed by at least two ASCII
letters.  Candidate lengths for the domain-class repetition are tried from
`k` downward, exactly as the greedy Python engine does; the result is the
total length matched after the at sign. -/
def domainMatchLen (rest : List Char) : Nat → Option Nat
  | 0 => none
  | k + 1 =>
    match rest.drop (k + 1) with
    | '.' :: t =>
      let tld := t.takeWhile Char.isAlpha
      if 2 ≤ tld.length then some (k + 1 + 1 + tld.length) else domainMatchLen rest k
    | _ => domainMatchLen rest k

/-- Length of the match of the e-mail pattern anchored at the start of `cs`,
if any, with Python greedy-plus-backtracking semantics. -/
def matchEmailAt (cs : List Char) : Option Nat :=
  let lcl := cs.takeWhile isLocalChar
  if lcl.isEmpty then none
  else
    match cs.drop lcl.length with
    | '@' :: rest =>
      match domainMatchLen rest (rest.takeWhile isDomainChar).length with
      | some n => some (lcl.length + 1 + n)
      | none => none
    | _ => none

/-- Scan for re.findall: at each position try a match; on success emit it and
continue after its end, otherwise advance one character.  The fuel argument
is the length of the scanned text. -/
def findallAux : Nat → List Char → List String
  | 0, _ => []
  | _, [] => []
  | fuel + 1, c :: rest =>
    match matchEmailAt (c :: rest) with
    | some n => String.mk ((c :: rest).take n) :: findallAux fuel ((c :: rest).drop n)
    | none => findallAux fuel rest

/-- re.findall of the e-mail pattern over a text: all non-overlapping matches
in order of first appearance. -/
def findallEmails (s : String) : List String :=
  findallAux s.length s.toList

/-- Helper for re.search: does any position of the text start a match. -/
def searchAux : List Char → Bool
  | [] => false
  | c :: rest => (matchEmailAt (c :: rest)).isSome || searchAux rest

/-- re.search of the e-mail pattern, as used by the pandas str.contains
filter: true when the text contains a match anywhere. -/
def reSearch (s : String) : Bool :=
  searchAux s.toList

/-- Python str.lower over the ASCII alphabet of this program. -/
def pyLower (s : String) : String :=
  String.mk (s.toList.map Char.toLower)

/-- Python substring test needle in hay. -/
def strContains (hay needle : String) : Bool :=
  hay.toList.tails.any (fun t => needle.toList.isPrefixOf t)

/-- Keyword test of the link discoverer: some keyword, taken verbatim, is a
substring of the lowercased href. -/
def keywordHit (kws : List String) (href : String) : Bool :=
  kws.any (fun kw => strContains (pyLower href) kw)

/-- The list comprehension of get_contact_page_urls applied to a parsed page:
hrefs of anchors whose lowercased href contains some keyword, in document
order, without deduplication. -/
def discoverFromDoc (doc : HNode) (kws : List String) : List String :=
  (anchorHrefs doc).filter (keywordHit kws)

/-- get_contact_page_urls(session, main_url, keywords): fetch the page, parse
it, and filter the anchor hrefs; any exception inside the try block (in this
model, a parser failure) is caught and returned as the one-element list of
its stringified error. -/
def get_contact_page_urls (env : Env) (mainUrl : String) (kws : List String)
    (st : FetchState) : List String × FetchState :=
  let f := fetch env mainUrl st
  match env.parse f.1 with
  | .ok doc => (discoverFromDoc doc kws, f.2)
  | .error m => ([m], f.2)

/-- extract_emails_from_page(session, url, email_regex): fetch the page and
apply re.findall of the e-mail pattern to its text.  In this model the try
body is total (fetch absorbs its own errors and findall is total on
strings), so the except branch producing a stringified error never fires. -/
def extract_emails_from_page (env : Env) (u : String) (st : FetchState) :
    List String × FetchState :=
  let f := fetch env u st
  (findallEmails f.1, f.2)

/-- Sequential, state-threading map: the second candidate page is processed
only after the first completed, sharing the fetch cache. -/
def mapState {α β σ : Type} (f : α → σ → β × σ) : List α → σ → List β × σ
  | [], st => ([], st)
  | x :: xs, st =>
    let y := f x st
    let ys := mapState f xs y.2
    (y.1 :: ys.1, ys.2)

/-- process_kerk_url(session, kerk_url, keywords, email_regex): discover the
candidate contact pages of the seed, then extract e-mails from each candidate
in sequence, and return the seed unchanged paired with the per-page lists. -/
def process_kerk_url (env : Env) (kerkUrl : String) (kws : List String)
    (st : FetchState) : (String × List (List String)) × FetchState :=
  let g := get_contact_page_urls env kerkUrl kws st
  let m := mapState (fun p s => extract_emails_from_page env p s) g.1 g.2
  ((kerkUrl, m.1), m.2)

/-- ASCII whitespace characters of the regex class backslash-s. -/
def pyWhitespace (c : Char) : Bool :=
  c == ' ' || c == '\t' || c == '\n' || c == '\r' || c == '\x0b' || c == '\x0c'

/-- Character class of the first character after the scheme in the is_url
regex: anything except whitespace and the characters slash, dollar, dot,
question mark, hash. -/
def urlHostStart (c : Char) : Bool :=
  !(pyWhitespace c) && c != '/' && c != '$' && c != '.' && c != '?' && c != '#'

/-- Remainder of the is_url regex after the scheme: one host-start character,
then one arbitrary non-newline character, then a star that always matches
under prefix (re.match) semantics. -/
def urlAfterScheme : List Char → Bool
  | c1 :: c2 :: _ => urlHostStart c1 && c2 != '\n'
  | _ => false

/-- Prefix match (re.match) of the URL regex: the literal scheme http or
https followed by colon-slash-slash, then the host-start constraints. -/
def urlRegexMatch : List Char → Bool
  | 'h' :: 't' :: 't' :: 'p' :: rest =>
    match rest with
    | 's' :: ':' :: '/' :: '/' :: r => urlAfterScheme r
    | ':' :: '/' :: '/' :: r => urlAfterScheme r
    | _ => false
  | _ => false

/-- is_url(url): false for a falsy (empty) string, otherwise the anchored
prefix match of the URL regex. -/
def is_url (url : String) : Bool :=
  if url = "" then false else urlRegexMatch url.toList

/-- One record of the external church directory feed; only the website field
matters to the pipeline. -/
structure KerkRecord where
  website : String

/-- The seed list construction: websites of the records passing is_url, in
feed order. -/
def kerk_urls (records : List KerkRecord) : List String :=
  (records.filter (fun k => is_url k.website)).map (fun k => k.website)

/-- Python dict assignment d[k] = v: replace in place when the key exists,
append otherwise. -/
def insertPy {V : Type} : List (String × V) → String → V → List (String × V)
  | [], k, v => [(k, v)]
  | p :: rest, k, v => if p.1 = k then (k, v) :: rest else p :: insertPy rest k v

/-- The accumulation loop of main over asyncio.as_completed: every completed
task result (seed, emails) is folded into the dict in completion order. -/
def mainDict {V : Type} (results : List (String × V)) : List (String × V) :=
  results.foldl (fun d r => insertPy d r.1 r.2) []

/-- The rows comprehension preparing the DataFrame, kept with the exact
Python shape: the conditional on values sits inside a loop over values, so
the branch emitting (key, None) is unreachable (an empty values list makes
the loop body never run). -/
def rows (km : List (String × List (List String))) :
    List (String × Option (List String)) :=
  km.flatMap (fun kv =>
    kv.2.map (fun v =>
      if kv.2.isEmpty then (kv.1, (none : Option (List String))) else (kv.1, some v)))

/-- DataFrame.explode on the email column: a list value becomes one row per
element, an empty list becomes a single null row, a null stays a null row. -/
def explodeEmail (rs : List (String × Option (List String))) :
    List (String × Option String) :=
  rs.flatMap (fun r =>
    match r.2 with
    | none => [(r.1, (none : Option String))]
    | some l =>
      if l.isEmpty then [(r.1, (none : Option String))]
      else l.map (fun e => (r.1, some e)))

/-- The filter df[df.email.str.contains(EMAIL_REGEX, na=False)]: keep rows
whose email contains a match of the pattern; null emails are dropped by
na=False. -/
def filterEmailRows (rs : List (String × Option String)) :
    List (String × Option String) :=
  rs.filter (fun r =>
    match r.2 with
    | none => false
    | some s => reSearch s)

/-- drop_duplicates(subset=[email]) with the default keep=first: the first
row carrying each email value survives, later ones are removed. -/
def dropDuplicatesAux (seen : List (Option String)) :
    List (String × Option String) → List (String × Option String)
  | [] => []
  | r :: rs =>
    if r.2 ∈ seen then dropDuplicatesAux seen rs
    else r :: dropDuplicatesAux (r.2 :: seen) rs

/-- The full spreadsheet pipeline from the ResultMap of main to the final
table: rows comprehension, explode, e-mail filter, deduplication. -/
def finalTable (km : List (String × List (List String))) :
    List (String × Option String) :=
  dropDuplicatesAux [] (filterEmailRows (explodeEmail (rows km)))

/-- Rendering of the fetch result demanded by the words of the claim under
test (comparison definition, not translated from the source): a transport
error or any status outside 2xx yields the empty string. -/
def claimedFetchBody (env : Env) (u : String) : String :=
  match env.net u with
  | .error _ => ""
  | .ok (status, body) => if 200 ≤ status ∧ status < 300 then body else ""

/-- Link discovery demanded by the words of the claim under test (comparison
definition, not translated from the source): keywords compared
case-insensitively, so both sides lowercased. -/
def claimedDiscoverFromDoc (doc : HNode) (kws : List String) : List String :=
  (anchorHrefs doc).filter (fun href => kws.any (fun kw => strContains (pyLower href) (pyLower kw)))

/-- The empty fetch state at the start of a run. -/
def stEmpty : FetchState := ⟨[], []⟩

/-- Environment whose network always succeeds with status 200 and a fixed
body, used to instantiate cache theorems. -/
def envA : Env :=
  { net := fun _ => .ok (200, "HELLO BODY")
    parse := fun _ => .error "parser unavailable" }

/-- Environment whose network always answers with status 300 and a body,
exercising the raise_for_status boundary. -/
def env300 : Env :=
  { net := fun _ => .ok (300, "MULTIPLE CHOICES BODY")
    parse := fun _ => .error "parser unavailable" }

/-- Environment whose network always fails at transport level. -/
def envErr : Env :=
  { net := fun _ => .error "boom"
    parse := fun _ => .error "parser unavailable" }

/-- Environment whose network always fails with a connection refusal, used
for the extractor instance. -/
def envRefused : Env :=
  { net := fun _ => .error "connection refused"
    parse := fun _ => .error "parser unavailable" }

/-- Concrete page: one anchor whose href is CONTACT.html in capitals. -/
def docCase : HNode :=
  .elem "html" [] (.cons (.elem "body" []
    (.cons (.elem "a" [("href", "CONTACT.html")] (.cons (.text "Contact us") .nil)) .nil)) .nil)

/-- Environment serving docCase for every fetched page. -/
def envCase : Env :=
  { net := fun _ => .ok (200, "PAGE")
    parse := fun _ => .ok docCase }

/-- Concrete page with two contact-like anchors, used to instantiate the
processor alignment theorem. -/
def docB : HNode :=
  .elem "html" [] (.cons (.elem "body" []
    (.cons (.elem "a" [("href", "/contact")] (.cons (.text "Contact") .nil))
    (.cons (.elem "p" [] (.cons (.text "filler") .nil))
    (.cons (.elem "a" [("href", "/info")] (.cons (.text "Info") .nil)) .nil)))) .nil)

/-- Environment serving docB with distinct bodies per URL. -/
def envB : Env :=
  { net := fun u =>
      if u = "/contact" then .ok (200, "mail us at info@example.org today")
      else .ok (200, "HOME")
    parse := fun _ => .ok docB }

/-- Keyword list used by the processor alignment instance. -/
def kwsB : List String := ["contact", "info"]

/-- Seed list for the batch-runner key instance. -/
def seedsW : List String := ["https://a.example", "https://b.example"]

/-- Completed task results arriving in the opposite of seed order. -/
def resultsW : List (String × List (List String)) :=
  [("https://b.example", []), ("https://a.example", [["x@y.nl"]])]

/-- Directory records with one valid and one invalid website field. -/
def recordsW : List KerkRecord := [⟨"https://ok.example/x"⟩, ⟨"not a url"⟩]

/-- Completed task results for the validated seed list of recordsW. -/
def resultsW9 : List (String × List (List String)) := [("https://ok.example/x", [])]

/-- ResultMap with a single seed carrying a single e-mail. -/
def kmW : List (String × List (List String)) := [("https://example.org", [["info@example.org"]])]

/-- Fetch state right after a first fetch of a fixed URL under envA. -/
def stA : FetchState := (fetch envA "https://a.example" stEmpty).2

/- ------------------------------------------------------------------ -/
/- Helper lemmas -/
/- ------------------------------------------------------------------ -/

theorem lookupCache_cons_self (c : List (String × String)) (u v : String) :
    lookupCache ((u, v) :: c) u = some v := by
  simp [lookupCache, List.find?]

theorem insertPy_fst_mem {V : Type} (d : List (String × V)) (k s : String) (v : V) :
    s ∈ (insertPy d k v).map Prod.fst ↔ (s = k ∨ s ∈ d.map Prod.fst) := by
  induction d with
  | nil => simp [insertPy]
  | cons p rest ih =>
    have hins : insertPy (p :: rest) k v
        = if p.1 = k then (k, v) :: rest else p :: insertPy rest k v := rfl
    by_cases hp : p.1 = k
    · rw [hins, if_pos hp]
      simp only [List.map_cons, List.mem_cons, hp]
      tauto
    · rw [hins, if_neg hp]
      simp only [List.map_cons, List.mem_cons, ih]
      tauto

theorem insertPy_fst_nodup {V : Type} (d : List (String × V)) (k : String) (v : V)
    (hd : (d.map Prod.fst).Nodup) : ((insertPy d k v).map Prod.fst).Nodup := by
  induction d with
  | nil => simp [insertPy]
  | cons p rest ih =>
    rw [List.map_cons, List.nodup_cons] at hd
    have hins : insertPy (p :: rest) k v
        = if p.1 = k then (k, v) :: rest else p :: insertPy rest k v := rfl
    by_cases hp : p.1 = k
    · rw [hins, if_pos hp, List.map_cons, List.nodup_cons]
      exact ⟨hp ▸ hd.1, hd.2⟩
    · rw [hins, if_neg hp, List.map_cons, List.nodup_cons]
      refine ⟨fun hmem => ?_, ih hd.2⟩
      rcases (insertPy_fst_mem rest k p.1 v).1 hmem with h | h
      · exact hp h
      · exact hd.1 h

theorem foldl_insert_keys {V : Type} (rs : List (String × V)) (d : List (String × V))
    (hd : (d.map Prod.fst).Nodup) :
    ((rs.foldl (fun d r => insertPy d r.1 r.2) d).map Prod.fst).Nodup ∧
    ∀ s, s ∈ (rs.foldl (fun d r => insertPy d r.1 r.2) d).map Prod.fst ↔
      (s ∈ d.map Prod.fst ∨ s ∈ rs.map Prod.fst) := by
  induction rs generalizing d with
  | nil => exact ⟨hd, fun s => by simp⟩
  | cons r rs ih =>
    have h1 := insertPy_fst_nodup d r.1 r.2 hd
    obtain ⟨ha, hb⟩ := ih (insertPy d r.1 r.2) h1
    refine ⟨ha, fun s => ?_⟩
    rw [List.foldl_cons, hb s, insertPy_fst_mem]
    simp only [List.map_cons, List.mem_cons]
    tauto

theorem mapState_length {α β σ : Type} (f : α → σ → β × σ) (xs : List α) (st : σ) :
    (mapState f xs st).1.length = xs.length := by
  induction xs generalizing st with
  | nil => rfl
  | cons x xs ih => simp [mapState, ih]

theorem mapState_get? {α β σ : Type} (f : α → σ → β × σ) (xs : List α) (st : σ)
    (i : Nat) (x : α) (hx : xs.get? i = some x) :
    (mapState f xs st).1.get? i = some (f x ((mapState f (xs.take i) st).2)).1 := by
  induction xs generalizing st i with
  | nil => simp at hx
  | cons y ys ih =>
    cases i with
    | zero =>
      have hyx : y = x := by simpa using hx
      subst hyx
      rfl
    | succ i =>
      have hx' : ys.get? i = some x := hx
      show (mapState f ys (f y st).2).1.get? i
        = some (f x ((mapState f ((y :: ys).take (i + 1)) st).2)).1
      rw [List.take_succ_cons]
      exact ih (f y st).2 i hx'

theorem dropDuplicatesAux_mem (seen : List (Option String))
    (rs : List (String × Option String)) (r : String × Option String)
    (hr : r ∈ dropDuplicatesAux seen rs) : r ∈ rs := by
  induction rs generalizing seen with
  | nil => simp [dropDuplicatesAux] at hr
  | cons x xs ih =>
    by_cases hx : x.2 ∈ seen
    · rw [dropDuplicatesAux, if_pos hx] at hr
      exact List.mem_cons_of_mem _ (ih seen hr)
    · rw [dropDuplicatesAux, if_neg hx] at hr
      rcases List.mem_cons.1 hr with h | h
      · exact h ▸ List.mem_cons_self _ _
      · exact List.mem_cons_of_mem _ (ih _ h)

theorem dropDuplicatesAux_not_seen (seen : List (Option String))
    (rs : List (String × Option String)) (r : String × Option String)
    (hr : r ∈ dropDuplicatesAux seen rs) : r.2 ∉ seen := by
  induction rs generalizing seen with
  | nil => simp [dropDuplicatesAux] at hr
  | cons x xs ih =>
    by_cases hx : x.2 ∈ seen
    · rw [dropDuplicatesAux, if_pos hx] at hr
      exact ih seen hr
    · rw [dropDuplicatesAux, if_neg hx] at hr
      rcases List.mem_cons.1 hr with h | h
      · exact h ▸ hx
      · intro hseen
        exact ih (x.2 :: seen) h (List.mem_cons_of_mem _ hseen)

theorem dropDuplicatesAux_nodup (seen : List (Option String))
    (rs : List (String × Option String)) :
    ((dropDuplicatesAux seen rs).map (fun r => r.2)).Nodup := by
  induction rs generalizing seen with
  | nil => simp [dropDuplicatesAux]
  | cons x xs ih =>
    by_cases hx : x.2 ∈ seen
    · rw [dropDuplicatesAux, if_pos hx]
      exact ih seen
    · rw [dropDuplicatesAux, if_neg hx, List.map_cons, List.nodup_cons]
      refine ⟨fun hmem => ?_, ih _⟩
      rcases List.mem_map.1 hmem with ⟨r, hr, hr2⟩
      exact (dropDuplicatesAux_not_seen _ _ r hr) (by rw [hr2]; exact List.mem_cons_self _ _)

theorem dropDuplicatesAux_sublist (seen : List (Option String))
    (rs : List (String × Option String)) :
    List.Sublist (dropDuplicatesAux seen rs) rs := by
  induction rs generalizing seen with
  | nil => simp [dropDuplicatesAux]
  | cons x xs ih =>
    by_cases hx : x.2 ∈ seen
    · rw [dropDuplicatesAux, if_pos hx]
      exact List.Sublist.cons x (ih seen)
    · rw [dropDuplicatesAux, if_neg hx]
      exact List.Sublist.cons₂ x (ih _)

theorem dropDuplicatesAux_find? (seen : List (Option String))
    (rs : List (String × Option String)) (e : Option String) (he : e ∉ seen) :
    (dropDuplicatesAux seen rs).find? (fun r => r.2 == e)
      = rs.find? (fun r => r.2 == e) := by
  induction rs generalizing seen with
  | nil => simp [dropDuplicatesAux]
  | cons x xs ih =>
    by_cases hxe : x.2 = e
    · have hp : (x.2 == e) = true := beq_iff_eq.2 hxe
      have hx : x.2 ∉ seen := hxe ▸ he
      rw [dropDuplicatesAux, if_neg hx, List.find?_cons, List.find?_cons]
      simp only [hp]
    · have hp : (x.2 == e) = false := by
        simp only [beq_eq_false_iff_ne, ne_eq]
        exact hxe
      by_cases hx : x.2 ∈ seen
      · rw [dropDuplicatesAux, if_pos hx, List.find?_cons]
        simp only [hp]
        exact ih seen he
      · have he' : e ∉ x.2 :: seen := by
          intro hmem
          rcases List.mem_cons.1 hmem with h | h
          · exact hxe h.symm
          · exact he h
        rw [dropDuplicatesAux, if_neg hx, List.find?_cons, List.find?_cons]
        simp only [hp]
        exact ih _ he'

theorem count_filter_eq {α : Type} [DecidableEq α] (p : α → Bool) (l : List α) (a : α) :
    (l.filter p).count a = if p a then l.count a else 0 := by
  induction l with
  | nil => simp
  | cons x xs ih =>
    by_cases hx : p x
    · by_cases hxa : x = a
      · subst hxa
        simp [List.filter_cons, hx, List.count_cons, ih]
      · simp [List.filter_cons, hx, List.count_cons, hxa, ih]
    · by_cases hxa : x = a
      · subst hxa
        simp [List.filter_cons, hx, List.count_cons, ih]
      · simp [List.filter_cons, hx, List.count_cons, hxa, ih]

/- ------------------------------------------------------------------ -/
/- Claim theorems -/
/- ------------------------------------------------------------------ -/

/-- Claim C1: for every URL, a second call to fetch whose cache entry from
the first call is still present (within the time-to-live window and with no
intervening eviction, rendered as the hypothesis that lookup still yields the
first result) returns text byte-identical to the first result and performs no
network request.  The first conjunct shows the first call does install that
entry. -/
theorem fetch_second_call_cached (env : Env) (u : String) (st st2 : FetchState)
    (h : lookupCache st2.cache u = some (fetch env u st).1) :
    lookupCache ((fetch env u st).2).cache u = some (fetch env u st).1 ∧
    (fetch env u st2).1 = (fetch env u st).1 ∧
    ((fetch env u st2).2).requests = st2.requests := by
  refine ⟨?_, ?_, ?_⟩
  · cases hl : lookupCache st.cache u with
    | some v => simp [fetch, hl]
    | none => simp [fetch, hl, lookupCache_cons_self]
  · simp [fetch, h]
  · simp [fetch, h]

/-- Witness for C1: a concrete first fetch under envA installs the entry, and
the second call returns the same body without growing the request log. -/
theorem fetch_second_call_cached_witness :
    lookupCache stA.cache "https://a.example" = some (fetch envA "https://a.example" stEmpty).1 ∧
    (lookupCache ((fetch envA "https://a.example" stEmpty).2).cache "https://a.example"
        = some (fetch envA "https://a.example" stEmpty).1 ∧
      (fetch envA "https://a.example" stA).1 = (fetch envA "https://a.example" stEmpty).1 ∧
      ((fetch envA "https://a.example" stA).2).requests = stA.requests) :=
  ⟨by decide, fetch_second_call_cached envA "https://a.example" stEmpty stA (by decide)⟩

/-- Claim C2 (counterexample): the claim says any non-2xx status yields the
empty string, but aiohttp raise_for_status only fires at status 400 and
above, so a status-300 response that was not consumed by redirect following
returns its body: the code disagrees with the rendering of the claim. -/
theorem fetch_non2xx_counterexample :
    (fetch env300 "https://a.example" stEmpty).1 = "MULTIPLE CHOICES BODY" ∧
    claimedFetchBody env300 "https://a.example" = "" ∧
    ("MULTIPLE CHOICES BODY" : String) ≠ "" := by decide

/-- Claim C2 (amended): on a call that performs the underlying HTTP request
(no cached entry), fetch never raises: every erroring attempt is absorbed,
a transport error or timeout yields the empty string, a status of 400 or
above yields the empty string, and any response below 400 yields its body
text. -/
theorem fetch_error_absorption (env : Env) (u : String) (st : FetchState)
    (hmiss : lookupCache st.cache u = none) :
    (fetch env u st).1 = requestBody env u ∧
    (∀ e, requestAttempt env u = .error e → (fetch env u st).1 = "") ∧
    (∀ t, requestAttempt env u = .ok t → (fetch env u st).1 = t) ∧
    (∀ m, env.net u = .error m → (fetch env u st).1 = "") ∧
    (∀ status body, env.net u = .ok (status, body) → 400 ≤ status →
      (fetch env u st).1 = "") ∧
    (∀ status body, env.net u = .ok (status, body) → status < 400 →
      (fetch env u st).1 = body) := by
  have h1 : (fetch env u st).1 = requestBody env u := by simp [fetch, hmiss]
  refine ⟨h1, ?_, ?_, ?_, ?_, ?_⟩
  · intro e he
    rw [h1, requestBody, he]
  · intro t ht
    rw [h1, requestBody, ht]
  · intro m hm
    rw [h1]
    simp [requestBody, requestAttempt, hm]
  · intro status body hb hs
    rw [h1]
    simp [requestBody, requestAttempt, hb, if_pos hs]
  · intro status body hb hs
    have hns : ¬ 400 ≤ status := by omega
    rw [h1]
    simp [requestBody, requestAttempt, hb, if_neg hns]

/-- Witness for the amended C2: a transport failure on a fresh URL is
converted to the empty string. -/
theorem fetch_error_absorption_witness :
    lookupCache stEmpty.cache "https://a.example" = none ∧
    (fetch envErr "https://a.example" stEmpty).1 = "" :=
  ⟨rfl, by
    have h := fetch_error_absorption envErr "https://a.example" stEmpty rfl
    exact h.2.2.2.1 "boom" rfl⟩

/-- Claim C3: for any list of completed task results whose first components
are a permutation of the seed list (as delivered by as_completed), the
assembled ResultMap has pairwise distinct keys and its keys are exactly the
seeds, so every seed appears exactly once and no other key appears; and every
task result of the URL Processor is keyed by its own seed regardless of any
fetch, parse or extraction failure (the processor is total in this model). -/
theorem main_resultmap_keys (seeds : List String)
    (results : List (String × List (List String)))
    (hperm : List.Perm (results.map Prod.fst) seeds) :
    ((mainDict results).map Prod.fst).Nodup ∧
    (∀ s, s ∈ (mainDict results).map Prod.fst ↔ s ∈ seeds) ∧
    (∀ (env : Env) (seed : String) (kws : List String) (st : FetchState),
      ((process_kerk_url env seed kws st).1).1 = seed) := by
  obtain ⟨ha, hb⟩ := foldl_insert_keys results [] (by simp)
  refine ⟨ha, fun s => ?_, fun env seed kws st => rfl⟩
  rw [show mainDict results = results.foldl (fun d r => insertPy d r.1 r.2) [] from rfl,
    hb s]
  simp [hperm.mem_iff]

/-- Witness for C3: two seeds completing in swapped order still give a map
keyed exactly by the seeds. -/
theorem main_resultmap_keys_witness :
    List.Perm (resultsW.map Prod.fst) seedsW ∧
    ((mainDict resultsW).map Prod.fst).Nodup ∧
    ("https://a.example" ∈ (mainDict resultsW).map Prod.fst ↔ "https://a.example" ∈ seedsW) :=
  ⟨by decide,
   (main_resultmap_keys seedsW resultsW (by decide)).1,
   (main_resultmap_keys seedsW resultsW (by decide)).2.1 "https://a.example"⟩

/-- Claim C4 (code bug): a seed with no discovered e-mails gets no row at
all.  With an empty per-seed list the inner comprehension loop never runs, so
the branch emitting (url, null) is dead and the seed vanishes from rows; and
even the null row produced by exploding an empty per-page list is then
dropped by the na=False filter.  A seed with one e-mail next to it is kept,
showing the drop is specific to the empty seeds. -/
theorem rows_empty_seed_dropped :
    rows [("https://example.org", [])] = [] ∧
    finalTable [("https://example.org", [])] = [] ∧
    explodeEmail (rows [("https://example.org", [[]])]) = [("https://example.org", none)] ∧
    finalTable [("https://example.org", [[]])] = [] ∧
    finalTable [("https://a.example", [["a@b.co"]]), ("https://example.org", [])]
      = [("https://a.example", some "a@b.co")] := by decide

/-- Claim C5: every row of the final table carries an e-mail string that
contains a match of the e-mail pattern (the re.search semantics of the
pandas str.contains filter); in particular no null row and no raw error
string without a pattern match survives to the output. -/
theorem final_email_column_matches (km : List (String × List (List String)))
    (r : String × Option String) (hr : r ∈ finalTable km) :
    ∃ s, r.2 = some s ∧ reSearch s = true := by
  rw [show finalTable km
      = dropDuplicatesAux [] (filterEmailRows (explodeEmail (rows km))) from rfl] at hr
  have h1 := dropDuplicatesAux_mem [] _ r hr
  rw [show filterEmailRows (explodeEmail (rows km))
      = (explodeEmail (rows km)).filter (fun r =>
          match r.2 with | none => false | some s => reSearch s) from rfl] at h1
  have h2 := (List.mem_filter.1 h1).2
  cases hs : r.2 with
  | none =>
    rw [hs] at h2
    exact absurd h2 (by simp)
  | some s =>
    rw [hs] at h2
    exact ⟨s, rfl, h2⟩

/-- Witness for C5: the single surviving row of a concrete run satisfies the
pattern. -/
theorem final_email_column_matches_witness :
    ("https://example.org", some "info@example.org") ∈ finalTable kmW ∧
    reSearch "info@example.org" = true :=
  ⟨by decide, by
    obtain ⟨s, hs, hsearch⟩ := final_email_column_matches kmW
      ("https://example.org", some "info@example.org") (by decide)
    exact (Option.some.inj hs) ▸ hsearch⟩

/-- Claim C6: deduplication keeps only the first-encountered row per e-mail
value: the final table is a sublist of the filtered rows (order preserved,
rows only removed), its e-mail column is duplicate-free, and for every e-mail
value the surviving row is exactly the first row of the filtered table
carrying it. -/
theorem final_dedup_first_occurrence (km : List (String × List (List String))) :
    List.Sublist (finalTable km) (filterEmailRows (explodeEmail (rows km))) ∧
    ((finalTable km).map (fun r => r.2)).Nodup ∧
    ∀ e : Option String,
      (finalTable km).find? (fun r => r.2 == e)
        = (filterEmailRows (explodeEmail (rows km))).find? (fun r => r.2 == e) :=
  ⟨dropDuplicatesAux_sublist _ _, dropDuplicatesAux_nodup _ _,
   fun e => dropDuplicatesAux_find? _ _ e (by simp)⟩

/-- Claim C7 (counterexample): the claim demands case-insensitive keyword
comparison, but the code lowercases only the href, so the keyword Contact
never matches the href CONTACT.html although the lowercased forms match: the
code returns the empty list where the claim demands the href. -/
theorem discover_case_counterexample :
    (get_contact_page_urls envCase "https://s.example" ["Contact"] stEmpty).1 = [] ∧
    discoverFromDoc docCase ["Contact"] = [] ∧
    claimedDiscoverFromDoc docCase ["Contact"] = ["CONTACT.html"] ∧
    ([] : List String) ≠ ["CONTACT.html"] := by decide

/-- Claim C7 (amended): on a parse failure the Link Discoverer returns the
one-element list with the stringified error; on success it returns exactly
the hrefs of anchor elements whose lowercased href contains at least one
keyword taken verbatim (keywords are not lowercased, so a keyword with an
uppercase letter never matches), in document order and without
deduplication. -/
theorem discover_characterization (env : Env) (u : String) (kws : List String)
    (st : FetchState) :
    (∀ m, env.parse (fetch env u st).1 = .error m →
      (get_contact_page_urls env u kws st).1 = [m]) ∧
    (∀ doc, env.parse (fetch env u st).1 = .ok doc →
      (get_contact_page_urls env u kws st).1 = discoverFromDoc doc kws ∧
      List.Sublist (discoverFromDoc doc kws) (anchorHrefs doc) ∧
      (∀ h, h ∈ discoverFromDoc doc kws ↔ (h ∈ anchorHrefs doc ∧ keywordHit kws h = true)) ∧
      (∀ h, (discoverFromDoc doc kws).count h
        = if keywordHit kws h then (anchorHrefs doc).count h else 0)) := by
  constructor
  · intro m hm
    simp [get_contact_page_urls, hm]
  · intro doc hdoc
    refine ⟨by simp [get_contact_page_urls, hdoc], List.filter_sublist _,
      fun h => ?_, fun h => count_filter_eq _ _ _⟩
    simp [discoverFromDoc, List.mem_filter]

/-- Witness for the amended C7: under the concrete environment serving
docCase the success branch applies and the result is the filtered href
list. -/
theorem discover_characterization_witness :
    envCase.parse (fetch envCase "https://s.example" stEmpty).1 = Except.ok docCase ∧
    (get_contact_page_urls envCase "https://s.example" ["info"] stEmpty).1
      = discoverFromDoc docCase ["info"] :=
  ⟨rfl,
   ((discover_characterization envCase "https://s.example" ["info"] stEmpty).2
     docCase rfl).1⟩

/-- Claim C8: the URL Processor returns the seed URL unchanged, one e-mail
list per discovered candidate page with equal length, and the list at each
position is the extraction result for the candidate at the same position,
computed with the fetch state threaded through the earlier candidates one at
a time in sequence. -/
theorem process_alignment (env : Env) (seed : String) (kws : List String)
    (st : FetchState) :
    ((process_kerk_url env seed kws st).1).1 = seed ∧
    ((process_kerk_url env seed kws st).1).2.length
      = (get_contact_page_urls env seed kws st).1.length ∧
    (∀ i page, (get_contact_page_urls env seed kws st).1.get? i = some page →
      ((process_kerk_url env seed kws st).1).2.get? i
        = some (extract_emails_from_page env page
            ((mapState (fun p s => extract_emails_from_page env p s)
              ((get_contact_page_urls env seed kws st).1.take i)
              (get_contact_page_urls env seed kws st).2)).2).1) := by
  refine ⟨rfl, mapState_length _ _ _, ?_⟩
  intro i page hp
  exact mapState_get? _ _ _ i page hp

/-- Witness for C8: a concrete seed with two candidate pages, instantiated at
the first candidate. -/
theorem process_alignment_witness :
    (get_contact_page_urls envB "https://b.example" kwsB stEmpty).1.get? 0 = some "/contact" ∧
    ((process_kerk_url envB "https://b.example" kwsB stEmpty).1).1 = "https://b.example" ∧
    ((process_kerk_url envB "https://b.example" kwsB stEmpty).1).2.length
      = (get_contact_page_urls envB "https://b.example" kwsB stEmpty).1.length ∧
    ((process_kerk_url envB "https://b.example" kwsB stEmpty).1).2.get? 0
      = some (extract_emails_from_page envB "/contact"
          ((mapState (fun p s => extract_emails_from_page envB p s)
            ((get_contact_page_urls envB "https://b.example" kwsB stEmpty).1.take 0)
            (get_contact_page_urls envB "https://b.example" kwsB stEmpty).2)).2).1 :=
  ⟨by decide,
   (process_alignment envB "https://b.example" kwsB stEmpty).1,
   (process_alignment envB "https://b.example" kwsB stEmpty).2.1,
   (process_alignment envB "https://b.example" kwsB stEmpty).2.2 0 "/contact" (by decide)⟩

/-- Claim C9: only records whose website passes is_url are kept as seeds,
every kept seed satisfies is_url, the literal string which is not a URL fails
is_url and is never a seed, and therefore never a key of the assembled
ResultMap of any batch over the validated seed list. -/
theorem seed_validation (records : List KerkRecord)
    (results : List (String × List (List String))) :
    is_url "not a url" = false ∧
    (∀ u, u ∈ kerk_urls records → is_url u = true) ∧
    "not a url" ∉ kerk_urls records ∧
    (List.Perm (results.map Prod.fst) (kerk_urls records) →
      "not a url" ∉ (mainDict results).map Prod.fst) := by
  have hvalid : ∀ u, u ∈ kerk_urls records → is_url u = true := by
    intro u hu
    rw [show kerk_urls records
        = (records.filter (fun k => is_url k.website)).map (fun k => k.website) from rfl] at hu
    rcases List.mem_map.1 hu with ⟨k, hk, hk2⟩
    have := (List.mem_filter.1 hk).2
    rw [hk2] at this
    exact this
  have hno : "not a url" ∉ kerk_urls records := by
    intro hmem
    have := hvalid _ hmem
    rw [show is_url "not a url" = false from rfl] at this
    cases this
  refine ⟨rfl, hvalid, hno, fun hperm hmem => ?_⟩
  obtain ⟨_, hb⟩ := foldl_insert_keys results [] (by simp)
  rw [show mainDict results = results.foldl (fun d r => insertPy d r.1 r.2) [] from rfl,
    hb "not a url"] at hmem
  rcases hmem with h | h
  · simp at h
  · exact hno (hperm.mem_iff.1 h)

/-- Witness for C9: a record with an invalid website is excluded from the
seed list and from the ResultMap keys of a batch over the remaining seed. -/
theorem seed_validation_witness :
    List.Perm (resultsW9.map Prod.fst) (kerk_urls recordsW) ∧
    "not a url" ∉ (mainDict resultsW9).map Prod.fst ∧
    is_url "not a url" = false :=
  ⟨by decide,
   (seed_validation recordsW resultsW9).2.2.2 (by decide),
   (seed_validation recordsW resultsW9).1⟩

/-- Claim C10: whenever fetch yields the empty string for a candidate page
(because the request failed or the page had no body), the Email Extractor
returns the empty list, indistinguishable from a fetched page containing no
e-mails and never an error-string entry. -/
theorem extract_empty_on_empty_fetch (env : Env) (u : String) (st : FetchState)
    (h : (fetch env u st).1 = "") :
    (extract_emails_from_page env u st).1 = [] := by
  show findallEmails (fetch env u st).1 = []
  rw [h]
  decide

/-- Witness for C10: a transport failure yields the empty fetch result and
the extractor returns the empty list. -/
theorem extract_empty_on_empty_fetch_witness :
    (fetch envRefused "https://c.example" stEmpty).1 = "" ∧
    (extract_emails_from_page envRefused "https://c.example" stEmpty).1 = [] :=
  ⟨rfl, extract_empty_on_empty_fetch envRefused "https://c.example" stEmpty rfl⟩

end FindChurchEmails
